import Mathlib

/-!
# Verification of the glyphon shaping cache and frame pool

Shallow embedding of `src/glyphon/cache.rs` and
`src/glyphon/text_rendering.rs`: the FNV-1a content hasher, the
`LockFreeShapeCache` (fixed-capacity shape cache with round-robin
replacement and LRU sweep), the `ZeroAllocTextAreaPool` (per-frame
descriptor pool with periodic stale-entry compaction), and the per-row
driver of `create_text_areas_for_dirty_rows`.

Machine integers are modelled as `Nat`; 64-bit wrapping multiplication in
the hash is modelled with an explicit `% 2 ^ 64`.  Counters that are only
ever incremented (hit/miss counts, frame counters, the round-robin cursor)
are modelled as unbounded `Nat`, since no claim exercises u64/usize
overflow.  `f32` positions/bounds/colors are never computed with — only
stored and copied — so they are carried as opaque type parameters.
Atomic loads/stores in the source are all `Ordering::Relaxed` bookkeeping
under a single writer, so they are modelled as plain state updates.
-/

namespace VelloCache

/-! ## ContentHasher: `LockFreeShapeCache::hash_text_fnv1a_optimized` -/

/-- `FNV_OFFSET_BASIS` from `cache.rs`. -/
def FNV_OFFSET_BASIS : Nat := 0xcbf29ce484222325

/-- `FNV_PRIME` from `cache.rs`. -/
def FNV_PRIME : Nat := 0x100000001b3

/-- One FNV-1a round: `hash ^= b; hash = hash.wrapping_mul(FNV_PRIME)`. -/
def fnv1aStep (hash b : Nat) : Nat := ((hash ^^^ b) * FNV_PRIME) % 2 ^ 64

/-- Straightforward byte-at-a-time FNV-1a fold (the reference semantics
the spec describes). -/
def fnv1aReference (bytes : List Nat) : Nat :=
  bytes.foldl fnv1aStep FNV_OFFSET_BASIS

/-- The manually 4-byte-unrolled loop of `hash_text_fnv1a_optimized`:
`while i + 4 <= bytes.len()` processes four bytes per iteration, then the
trailing `while i < bytes.len()` loop finishes one byte at a time. -/
def fnv1aUnrolledLoop : Nat → List Nat → Nat
  | hash, b0 :: b1 :: b2 :: b3 :: rest =>
      fnv1aUnrolledLoop
        (fnv1aStep (fnv1aStep (fnv1aStep (fnv1aStep hash b0) b1) b2) b3) rest
  | hash, rest => rest.foldl fnv1aStep hash

/-- `LockFreeShapeCache::hash_text_fnv1a_optimized`, on the UTF-8 byte
sequence of the text. -/
def hash_text_fnv1a_optimized (bytes : List Nat) : Nat :=
  fnv1aUnrolledLoop FNV_OFFSET_BASIS bytes

/-- UTF-8 bytes of a text (Rust `text.as_bytes()`), for text given as a
list of characters. -/
def utf8Bytes (text : List Char) : List Nat :=
  (text.flatMap String.utf8EncodeChar).map (fun b => b.toNat)

/-- Hash of a text as the source computes it: FNV-1a over its UTF-8
bytes. -/
def hashText (text : List Char) : Nat :=
  hash_text_fnv1a_optimized (utf8Bytes text)

/-! ## `LockFreeShapeCache` data model

The payload type `β` stands for `glyphon::Buffer`, the externally shaped
buffer; the external shaper pipeline (`Buffer::new` + `set_text` +
`shape_until_scroll`, all infallible) is passed in as a total function
`shaper : List Char → β` with the font system, metrics, attributes and
shaping mode captured in its closure. -/

/-- `ShapeCacheEntry` from `cache.rs`: hash, optional cached buffer
(`none` = empty slot), last-used frame, per-entry hit counter. -/
structure ShapeCacheEntry (β : Type) where
  text_hash : Nat
  buffer : Option β
  last_used : Nat
  hit_count : Nat
deriving DecidableEq

/-- `ShapeCacheEntry::default` / the `const` initializer in
`LockFreeShapeCache::new`: hash 0, no buffer, frame 0, hits 0. -/
def ShapeCacheEntry.empty (β : Type) : ShapeCacheEntry β :=
  ⟨0, none, 0, 0⟩

instance (β : Type) : Inhabited (ShapeCacheEntry β) := ⟨ShapeCacheEntry.empty β⟩

/-- `LockFreeShapeCache<SIZE>`: the fixed entry array (capacity `SIZE` is
`entries.length`), the round-robin cursor, and the global hit/miss
counters. -/
structure LockFreeShapeCache (β : Type) where
  entries : List (ShapeCacheEntry β)
  next_index : Nat
  hit_count : Nat
  miss_count : Nat
deriving DecidableEq

/-- `LockFreeShapeCache::new` for a given capacity: all entries empty,
cursor and counters zero. -/
def LockFreeShapeCache.new (β : Type) (size : Nat) : LockFreeShapeCache β :=
  ⟨List.replicate size (ShapeCacheEntry.empty β), 0, 0, 0⟩

/-- The only error constructor `get_or_create` ever builds
(`CodeSkewError::CacheError(String)`). -/
inductive CodeSkewError where
  | CacheError : String → CodeSkewError
deriving DecidableEq

instance {e a : Type} [DecidableEq e] [DecidableEq a] :
    DecidableEq (Except e a) := fun x y =>
  match x, y with
  | .ok u, .ok v => decidable_of_iff (u = v) (by simp)
  | .error u, .error v => decidable_of_iff (u = v) (by simp)
  | .ok _, .error _ => isFalse (by simp)
  | .error _, .ok _ => isFalse (by simp)

namespace LockFreeShapeCache

variable {β : Type}

/-- `find_cached_entry`: `(0..SIZE).find(|&i| entries[i].text_hash == h
&& entries[i].buffer.is_some())`. -/
def find_cached_entry (c : LockFreeShapeCache β) (text_hash : Nat) : Option Nat :=
  (List.range c.entries.length).find? fun i =>
    (c.entries.getD i default).text_hash == text_hash
      && (c.entries.getD i default).buffer.isSome

/-- `find_replacement_slot`: fetch-and-increment the cursor, take it
modulo `SIZE`; an empty slot is used as-is, an occupied one is simply
replaced (both branches of the source return the same index). -/
def find_replacement_slot (c : LockFreeShapeCache β) :
    Nat × LockFreeShapeCache β :=
  let index := c.next_index % c.entries.length
  let c' := { c with next_index := c.next_index + 1 }
  if (c'.entries.getD index default).buffer.isNone then (index, c')
  else (index, c')

/-- `update_access_stats`: stamp `last_used` with the current frame and
bump the entry's hit counter. -/
def update_access_stats (c : LockFreeShapeCache β) (index frame_count : Nat) :
    LockFreeShapeCache β :=
  let e := c.entries.getD index default
  { c with
    entries := c.entries.set index
      { e with last_used := frame_count, hit_count := e.hit_count + 1 } }

/-- `get_or_create`: hash the text, linear-scan for a hit (stamp stats,
bump the global hit counter, return the cached buffer); on a miss bump
the global miss counter, pick the round-robin replacement slot, shape the
text and store the new entry there. -/
def get_or_create (shaper : List Char → β) (text : List Char)
    (frame_count : Nat) (c : LockFreeShapeCache β) :
    Except CodeSkewError (Nat × β) × LockFreeShapeCache β :=
  let text_hash := hashText text
  match c.find_cached_entry text_hash with
  | some index =>
      let c1 := c.update_access_stats index frame_count
      let c2 := { c1 with hit_count := c1.hit_count + 1 }
      match (c2.entries.getD index default).buffer with
      | some buffer => (.ok (index, buffer), c2)
      | none =>
          (.error (.CacheError "Cache entry missing buffer after validation"), c2)
  | none =>
      let c1 := { c with miss_count := c.miss_count + 1 }
      let (replacement_index, c2) := c1.find_replacement_slot
      let buffer := shaper text
      let new_entry : ShapeCacheEntry β :=
        { text_hash := text_hash, buffer := some buffer,
          last_used := frame_count, hit_count := 1 }
      let c3 := { c2 with entries := c2.entries.set replacement_index new_entry }
      match (c3.entries.getD replacement_index default).buffer with
      | some buffer_ref => (.ok (replacement_index, buffer_ref), c3)
      | none =>
          (.error (.CacheError "Cache entry missing buffer after insertion"), c3)

/-- `get_buffer`: `entries.get(cache_index).and_then(|e| e.buffer.as_ref())`. -/
def get_buffer (c : LockFreeShapeCache β) (cache_index : Nat) : Option β :=
  c.entries[cache_index]?.bind fun entry => entry.buffer

/-- `entries.iter().filter(|e| e.buffer.is_some()).count()`, as used by
`stats` and `utilization`. -/
def entriesUsed (c : LockFreeShapeCache β) : Nat :=
  (c.entries.filter fun e => e.buffer.isSome).length

/-- `utilization`: occupied fraction.  The source computes it in `f32`;
with capacity ≤ 2048 both operands are exactly representable, so it is
modelled as the exact rational quotient. -/
def utilization (c : LockFreeShapeCache β) : ℚ :=
  (c.entriesUsed : ℚ) / (c.entries.length : ℚ)

/-- Stable insertion of an `(index, age)` pair into a list sorted by age,
keeping equal ages in their original order — the semantics of Rust's
stable `sort_by_key`. -/
def insertByAge (x : Nat × Nat) : List (Nat × Nat) → List (Nat × Nat)
  | [] => [x]
  | y :: ys => if y.2 ≤ x.2 then y :: insertByAge x ys else x :: y :: ys

/-- Stable sort ascending by the second (age) component, modelling
`lru_indices.sort_by_key(|(_, age)| *age)`. -/
def sortByAge : List (Nat × Nat) → List (Nat × Nat)
  | [] => []
  | x :: xs => insertByAge x (sortByAge xs)

/-- `evict_lru_entries`: collect `(index, current_frame.saturating_sub
(last_used))` for every occupied slot (`Nat` subtraction is saturating),
sort ascending by age with a stable sort, and clear the first
`evict_count` entries of the sorted list (hash 0, buffer `None`,
`last_used` 0, hits 0). -/
def evict_lru_entries (c : LockFreeShapeCache β)
    (current_frame evict_count : Nat) : LockFreeShapeCache β :=
  let lru_indices := c.entries.enum.filterMap fun ie =>
    if ie.2.buffer.isSome then some (ie.1, current_frame - ie.2.last_used)
    else none
  let sorted := sortByAge lru_indices
  { c with
    entries := (sorted.take evict_count).foldl
      (fun es p => es.set p.1 (ShapeCacheEntry.empty β)) c.entries }

/-- `evict_lru_if_needed`: when utilization exceeds the threshold, evict
`SIZE / 4` entries. -/
def evict_lru_if_needed (c : LockFreeShapeCache β)
    (max_utilization : ℚ) (current_frame : Nat) : LockFreeShapeCache β :=
  if c.utilization > max_utilization then
    c.evict_lru_entries current_frame (c.entries.length / 4)
  else c

end LockFreeShapeCache

/-! ## `ZeroAllocTextAreaPool` data model

The `f32` position fields (`left`, `top`, `scale`), the `TextBounds`
rectangle and the `glyphon::Color` are only ever stored and copied, never
computed with, so they are carried as opaque type parameters `F`, `B`,
`C`. -/

/-- `MAX_AGE_FRAMES` from `cache.rs`. -/
def MAX_AGE_FRAMES : Nat := 180

/-- `CLEANUP_INTERVAL_FRAMES` from `cache.rs`. -/
def CLEANUP_INTERVAL_FRAMES : Nat := 60

/-- `SafeTextArea`: a per-frame draw descriptor referencing a shape-cache
slot by index. -/
structure SafeTextArea (F B C : Type) where
  buffer_cache_index : Nat
  text_hash : Nat
  left : F
  top : F
  scale : F
  bounds : B
  default_color : C
  created_frame : Nat
  last_access_frame : Nat
deriving DecidableEq

namespace SafeTextArea

/-- `SafeTextArea::new`: `last_access_frame` starts at `created_frame`. -/
def new {F B C : Type} (buffer_cache_index text_hash : Nat)
    (left top scale : F) (bounds : B) (default_color : C)
    (created_frame : Nat) : SafeTextArea F B C :=
  ⟨buffer_cache_index, text_hash, left, top, scale, bounds, default_color,
    created_frame, created_frame⟩

/-- `SafeTextArea::is_stale`:
`current_frame.saturating_sub(last_access) > max_age` (`Nat` subtraction
is saturating). -/
def is_stale {F B C : Type} (a : SafeTextArea F B C)
    (current_frame max_age : Nat) : Bool :=
  current_frame - a.last_access_frame > max_age

end SafeTextArea

/-- `ZeroAllocTextAreaPool<CAPACITY>`: fixed descriptor array (capacity is
`areas.length`), active count, frame counter. -/
structure ZeroAllocTextAreaPool (F B C : Type) where
  areas : List (Option (SafeTextArea F B C))
  active_count : Nat
  frame_counter : Nat
deriving DecidableEq

/-- The error type `TextAreaPoolError` from `cache.rs`. -/
inductive TextAreaPoolError where
  | CapacityExceeded
  | CacheIndexNotFound
deriving DecidableEq

namespace ZeroAllocTextAreaPool

variable {F B C : Type}

/-- One iteration of the compaction loop in `cleanup_stale_areas`: state
is `(areas, write_idx)`, the argument is `read_idx`.  A live entry is
moved to `write_idx` (clearing `read_idx`) unless it is already in place;
a stale entry is cleared; an empty slot is skipped. -/
def cleanupStep (current_frame : Nat)
    (st : List (Option (SafeTextArea F B C)) × Nat) (read_idx : Nat) :
    List (Option (SafeTextArea F B C)) × Nat :=
  match st.1.getD read_idx none with
  | some area =>
      if !(area.is_stale current_frame MAX_AGE_FRAMES) then
        if st.2 ≠ read_idx then
          ((st.1.set st.2 (some area)).set read_idx none, st.2 + 1)
        else (st.1, st.2 + 1)
      else (st.1.set read_idx none, st.2)
  | none => st

/-- `cleanup_stale_areas`: compact the array by moving non-stale entries
to the front, iterating `read_idx` over `0..CAPACITY` with `write_idx`
starting at 0. -/
def cleanup_stale_areas (p : ZeroAllocTextAreaPool F B C)
    (current_frame : Nat) : ZeroAllocTextAreaPool F B C :=
  { p with
    areas := ((List.range p.areas.length).foldl (cleanupStep current_frame)
      (p.areas, 0)).1 }

/-- `reset`: post-increment the frame counter, run the periodic cleanup
when the (pre-increment) frame is a multiple of `CLEANUP_INTERVAL_FRAMES`,
then zero the active count. -/
def reset (p : ZeroAllocTextAreaPool F B C) : ZeroAllocTextAreaPool F B C :=
  let frame := p.frame_counter
  let p1 := { p with frame_counter := p.frame_counter + 1 }
  let p2 := if frame % CLEANUP_INTERVAL_FRAMES = 0
    then p1.cleanup_stale_areas frame else p1
  { p2 with active_count := 0 }

/-- `add_area`: fail with `CapacityExceeded` when the pool is full,
otherwise store a fresh descriptor at index `active_count` and advance the
count. -/
def add_area (p : ZeroAllocTextAreaPool F B C)
    (buffer_cache_index text_hash : Nat) (left top scale : F)
    (bounds : B) (default_color : C) :
    Except TextAreaPoolError Unit × ZeroAllocTextAreaPool F B C :=
  let current_count := p.active_count
  if current_count ≥ p.areas.length then (.error .CapacityExceeded, p)
  else
    let current_frame := p.frame_counter
    let safe_area := SafeTextArea.new buffer_cache_index text_hash left top
      scale bounds default_color current_frame
    (.ok (),
      { p with areas := p.areas.set current_count (some safe_area),
               active_count := current_count + 1 })

/-- `iter_active`: the `Some` descriptors among the first
`active_count.min(CAPACITY)` slots, in order. -/
def iter_active (p : ZeroAllocTextAreaPool F B C) :
    List (SafeTextArea F B C) :=
  (p.areas.take (min p.active_count p.areas.length)).filterMap id

end ZeroAllocTextAreaPool

/-- The argument bundle of one `add_area` call (everything the caller
passes besides the pool itself). -/
structure AddArgs (F B C : Type) where
  buffer_cache_index : Nat
  text_hash : Nat
  left : F
  top : F
  scale : F
  bounds : B
  default_color : C
deriving DecidableEq

/-- `add_area` applied to an argument bundle. -/
def addArea1 {F B C : Type} (p : ZeroAllocTextAreaPool F B C)
    (a : AddArgs F B C) :
    Except TextAreaPoolError Unit × ZeroAllocTextAreaPool F B C :=
  p.add_area a.buffer_cache_index a.text_hash a.left a.top a.scale a.bounds
    a.default_color

/-- The descriptor `add_area` builds from an argument bundle at a given
frame. -/
def mkArea {F B C : Type} (frame : Nat) (a : AddArgs F B C) :
    SafeTextArea F B C :=
  SafeTextArea.new a.buffer_cache_index a.text_hash a.left a.top a.scale
    a.bounds a.default_color frame

/-- A sequence of successive `add_area` calls, collecting each call's
result. -/
def addAll {F B C : Type} (p : ZeroAllocTextAreaPool F B C) :
    List (AddArgs F B C) →
    List (Except TextAreaPoolError Unit) × ZeroAllocTextAreaPool F B C
  | [] => ([], p)
  | a :: rest =>
      let r := addArea1 p a
      let rs := addAll r.2 rest
      (r.1 :: rs.1, rs.2)

/-! ## Cells and the per-row driver (`cell.rs`, `text_rendering.rs`) -/

/-- `Cell` from `cell.rs`: one terminal character with palette indices and
style flags. -/
structure Cell where
  character : Char
  foreground : Nat
  background : Nat
  style_flags : Nat
deriving DecidableEq

/-- `Cell::default`: space, white foreground (7), black background, no
style. -/
def Cell.default : Cell := ⟨' ', 7, 0, 0⟩

instance : Inhabited Cell := ⟨Cell.default⟩

namespace ZeroAllocTextRenderer

/-- Reverse scan of one chunk in `find_last_non_space_simd_friendly`:
examine indices `lo + len - 1` down to `lo`; on the first non-space cell
return `i + 1` (the source's early `return`). -/
def scanRevNonSpace (cells : List Cell) (lo : Nat) : Nat → Option Nat
  | 0 => none
  | len + 1 =>
      let i := lo + len
      if (cells.getD i Cell.default).character ≠ ' ' then some (i + 1)
      else scanRevNonSpace cells lo len

/-- The `for chunk_idx in (0..full_chunks).rev()` loop of
`find_last_non_space_simd_friendly`: scan full 8-cell chunks from the
last one backwards. -/
def chunkScanRev (cells : List Cell) : Nat → Option Nat
  | 0 => none
  | c + 1 =>
      match scanRevNonSpace cells (c * 8) 8 with
      | some r => some r
      | none => chunkScanRev cells c

/-- `find_last_non_space_simd_friendly`: process the trailing remainder
(length `COLS % 8`) first, then the full 8-cell chunks in reverse; return
0 when every cell is a space. -/
def find_last_non_space_simd_friendly (cells : List Cell) : Nat :=
  let cols := cells.length
  let full_chunks := cols / 8
  let remainder := cols % 8
  let fromRemainder :=
    if remainder > 0 then scanRevNonSpace cells (full_chunks * 8) remainder
    else none
  match fromRemainder with
  | some r => r
  | none =>
      match chunkScanRev cells full_chunks with
      | some r => r
      | none => 0

/-- `build_row_text_with_color`: single pass over the first
`last_non_space` cells, pushing each character and latching the palette
color of the first visible (non-space) character; an all-space row yields
the empty text and palette color 7. -/
def build_row_text_with_color {C : Type} (cells : List Cell)
    (palette : Nat → C) : List Char × C :=
  let last_non_space := find_last_non_space_simd_friendly cells
  if last_non_space = 0 then ([], palette 7)
  else
    let st := (cells.take last_non_space).foldl
      (fun (st : List Char × Option C) cell =>
        (st.1 ++ [cell.character],
         if st.2.isNone ∧ cell.character ≠ ' '
         then some (palette cell.foreground) else st.2))
      ([], none)
    (st.1, st.2.getD (palette 7))

end ZeroAllocTextRenderer

/-- `RowData` from `text_rendering.rs`; `y_position : F` and `bounds : B`
come from the (external, `f32`-computing) `TextRenderConfig`, supplied
here as opaque functions of the row index. -/
structure RowData (F B C : Type) where
  text : List Char
  bounds : B
  y_position : F
  default_color : C

/-- `RowData::from_cells`: derive text and first-visible color from the
cells, and position/bounds from the config. -/
def RowData.from_cells {F B C : Type} (cells : List Cell) (row_idx : Nat)
    (rowY : Nat → F) (rowBounds : Nat → B) (palette : Nat → C) :
    RowData F B C :=
  let tc := ZeroAllocTextRenderer.build_row_text_with_color cells palette
  ⟨tc.1, rowBounds row_idx, rowY row_idx, tc.2⟩

/-- The loop body of
`ZeroAllocTextRenderer::create_text_areas_for_dirty_rows` for one dirty
row: build the row data, skip the row when its text is empty, otherwise
shape-or-reuse through the cache and append a descriptor to the pool
(discarding `add_area`'s result, as the source's `let _ =` does).
`zeroF` is the literal `0.0` passed as `left`. -/
def processDirtyRow {β F B C : Type} (shaper : List Char → β)
    (palette : Nat → C) (rowY : Nat → F) (rowBounds : Nat → B)
    (scale_factor zeroF : F) (frame_count row_idx : Nat)
    (cells : List Cell) (shape_cache : LockFreeShapeCache β)
    (text_area_pool : ZeroAllocTextAreaPool F B C) :
    LockFreeShapeCache β × ZeroAllocTextAreaPool F B C :=
  let row_data := RowData.from_cells cells row_idx rowY rowBounds palette
  if row_data.text ≠ [] then
    match LockFreeShapeCache.get_or_create shaper row_data.text frame_count
      shape_cache with
    | (.ok res, cache') =>
        let text_hash := hashText row_data.text
        let pool' := (text_area_pool.add_area res.1 text_hash zeroF
          row_data.y_position scale_factor row_data.bounds
          row_data.default_color).2
        (cache', pool')
    | (.error _, cache') => (cache', text_area_pool)
  else (shape_cache, text_area_pool)


/-- Spec-side characterization used by C10: the descriptors that survive
a compaction at `current_frame` — the non-stale entries in their original
order. -/
def liveAreas {F B C : Type} (current_frame : Nat)
    (l : List (Option (SafeTextArea F B C))) : List (SafeTextArea F B C) :=
  (l.filterMap id).filter fun a => !(a.is_stale current_frame MAX_AGE_FRAMES)

/-! ## Concrete instances for witnesses, counterexamples and scenarios -/

/-- The identity shaper used by the concrete scenarios: the payload of a
text is the text itself. -/
def shaperId : List Char → List Char := id

/-- Cache for the C7 witness: slot 0 is empty but carries the default
fingerprint 0; slot 1 is occupied with fingerprint 0. -/
def c7Cache : LockFreeShapeCache Unit :=
  ⟨[⟨0, none, 0, 0⟩, ⟨0, some (), 0, 0⟩], 0, 0, 0⟩

/-- Failing input for C1: a capacity-4 cache, every slot occupied, with
pairwise-distinct `last_used` frames 10, 20, 30, 40. -/
def c1Cache : LockFreeShapeCache Unit :=
  ⟨[⟨1, some (), 10, 1⟩, ⟨2, some (), 20, 1⟩,
    ⟨3, some (), 30, 1⟩, ⟨4, some (), 40, 1⟩], 0, 0, 0⟩

/-- Cache for the C2 witness: empty, capacity 2. -/
def c2Cache : LockFreeShapeCache (List Char) := LockFreeShapeCache.new (List Char) 2

/-- The C3 scenario: an empty capacity-4 cache, then the successive
`get_or_create` calls of the claim. -/
def c3S0 : LockFreeShapeCache (List Char) := LockFreeShapeCache.new (List Char) 4

def c3S1 := LockFreeShapeCache.get_or_create shaperId ['a'] 0 c3S0

def c3S2 := LockFreeShapeCache.get_or_create shaperId ['b'] 0 c3S1.2

def c3S3 := LockFreeShapeCache.get_or_create shaperId ['c'] 0 c3S2.2

def c3S4 := LockFreeShapeCache.get_or_create shaperId ['d'] 0 c3S3.2

def c3S5 := LockFreeShapeCache.get_or_create shaperId ['a'] 1 c3S4.2

def c3S6 := LockFreeShapeCache.get_or_create shaperId ['e'] 2 c3S5.2

def c3S7 := LockFreeShapeCache.get_or_create shaperId ['a'] 3 c3S6.2

/-- Cache for the C5 counterexample: payloads are `Bool` flags recording
whether the external shaper reported usable output. -/
def c5Cache : LockFreeShapeCache Bool := LockFreeShapeCache.new Bool 2

/-- Pool for the C4 witness: capacity 2, never used. -/
def c4Pool : ZeroAllocTextAreaPool Unit Unit Unit := ⟨[none, none], 0, 0⟩

/-- Argument bundles for the C4 witness: exactly capacity-many adds. -/
def c4Args : List (AddArgs Unit Unit Unit) :=
  [⟨0, 11, (), (), (), (), ()⟩, ⟨1, 22, (), (), (), (), ()⟩]

/-- The overflowing (M+1)th argument bundle for the C4 witness. -/
def c4Extra : AddArgs Unit Unit Unit := ⟨2, 33, (), (), (), (), ()⟩

/-- All-space row for the C9 witness. -/
def c9Cells : List Cell := [Cell.default, Cell.default, Cell.default]

/-- Cache for the C9 witness: capacity 1, empty. -/
def c9Cache : LockFreeShapeCache (List Char) := LockFreeShapeCache.new (List Char) 1

/-- Pool for the C9 witness: capacity 1, empty. -/
def c9Pool : ZeroAllocTextAreaPool Unit Unit Unit := ⟨[none], 0, 0⟩

/-- Stale descriptor for the C10 witness: last touched at frame 10, so
age 190 > 180 at frame 200. -/
def c10A1 : SafeTextArea Unit Unit Unit := ⟨0, 0, (), (), (), (), (), 10, 10⟩

/-- Live descriptor for the C10 witness: last touched at frame 100, so
age 100 ≤ 180 at frame 200. -/
def c10A2 : SafeTextArea Unit Unit Unit := ⟨1, 1, (), (), (), (), (), 100, 100⟩

/-- Future-stamped descriptor for the C10 witness: last-access frame 300
lies after frame 200, so its saturating age is 0. -/
def c10A3 : SafeTextArea Unit Unit Unit := ⟨2, 2, (), (), (), (), (), 300, 300⟩

/-- Pool for the C10 witness: a stale entry, a hole, a live entry; frame
counter at a cleanup multiple. -/
def c10Pool : ZeroAllocTextAreaPool Unit Unit Unit :=
  ⟨[some c10A1, none, some c10A2], 2, 60⟩

/-! ## Shared helper lemmas -/

theorem fnv1aUnrolledLoop_eq_foldl (hash : Nat) (bytes : List Nat) :
    fnv1aUnrolledLoop hash bytes = bytes.foldl fnv1aStep hash := by
  induction hash, bytes using fnv1aUnrolledLoop.induct with
  | case1 h b0 b1 b2 b3 rest ih =>
      simpa [fnv1aUnrolledLoop] using ih
  | case2 h rest hne =>
      simp [fnv1aUnrolledLoop]

theorem getD_set_self {α : Type} {l : List α} {i : Nat} (a d : α)
    (h : i < l.length) : (l.set i a).getD i d = a := by
  simp [List.getD_eq_getElem?_getD, List.getElem?_set_self h]

theorem getD_set_ne {α : Type} {l : List α} {i j : Nat} (hij : i ≠ j)
    (a d : α) : (l.set i a).getD j d = l.getD j d := by
  simp [List.getD_eq_getElem?_getD, List.getElem?_set_ne hij]

theorem find?_congr {α : Type} {p q : α → Bool} :
    ∀ (l : List α), (∀ x ∈ l, p x = q x) → l.find? p = l.find? q := by
  intro l
  induction l with
  | nil => intro _; rfl
  | cons x t ih =>
      intro h
      have hx : p x = q x := h x (by simp)
      have ht := ih fun y hy => h y (by simp [hy])
      simp only [List.find?]
      rw [hx, ht]

theorem find?_eq_some_unique {α : Type} {p : α → Bool} {a : α} :
    ∀ {l : List α}, a ∈ l → p a = true →
      (∀ b ∈ l, p b = true → b = a) → l.find? p = some a := by
  intro l
  induction l with
  | nil => intro h; cases h
  | cons x t ih =>
      intro hmem hpa huniq
      by_cases hx : p x = true
      · have : x = a := huniq x (by simp) hx
        simp [List.find?, hx, this, hpa]
      · have hxa : x ≠ a := fun he => hx (he ▸ hpa)
        have hmem' : a ∈ t := by
          rcases List.mem_cons.1 hmem with h | h
          · exact absurd h.symm hxa
          · exact h
        have := ih hmem' hpa fun b hb hpb => huniq b (by simp [hb]) hpb
        simp [List.find?, Bool.eq_false_iff.2 hx, this]

/-- What a successful lookup guarantees: the returned index is in range,
its slot holds a payload, and its fingerprint matches the probed hash. -/
theorem find_cached_entry_spec {β : Type} (c : LockFreeShapeCache β)
    (text_hash i : Nat)
    (hfind : c.find_cached_entry text_hash = some i) :
    i < c.entries.length ∧
    (c.entries.getD i default).buffer.isSome = true ∧
    (c.entries.getD i default).text_hash = text_hash := by
  unfold LockFreeShapeCache.find_cached_entry at hfind
  have hlt : i < c.entries.length := by
    simpa [List.mem_range] using List.mem_of_find?_eq_some hfind
  have hp := List.find?_some hfind
  have hp' : (c.entries.getD i default).text_hash = text_hash ∧
      (c.entries.getD i default).buffer.isSome = true := by simpa using hp
  exact ⟨hlt, hp'.2, hp'.1⟩

/-- `find_replacement_slot` always yields the pre-increment cursor modulo
capacity, advancing the cursor (the empty/occupied branches agree). -/
theorem find_replacement_slot_eq {β : Type} (c : LockFreeShapeCache β) :
    c.find_replacement_slot =
      (c.next_index % c.entries.length,
       { c with next_index := c.next_index + 1 }) := by
  unfold LockFreeShapeCache.find_replacement_slot
  simp only [ite_self]

/-- Closed form of `get_or_create` on a hit. -/
theorem get_or_create_hit_eq {β : Type} (shaper : List Char → β)
    (t : List Char) (f : Nat) (c : LockFreeShapeCache β) (i : Nat) (b : β)
    (hfind : c.find_cached_entry (hashText t) = some i)
    (hb : (c.entries.getD i default).buffer = some b) :
    LockFreeShapeCache.get_or_create shaper t f c =
      (.ok (i, b),
       { c with
         entries := c.entries.set i
           (let e := c.entries.getD i default;
            { e with last_used := f, hit_count := e.hit_count + 1 }),
         hit_count := c.hit_count + 1 }) := by
  have hlt : i < c.entries.length := (find_cached_entry_spec c _ i hfind).1
  unfold LockFreeShapeCache.get_or_create
  simp only [hfind]
  simp only [LockFreeShapeCache.update_access_stats]
  rw [getD_set_self _ _ hlt]
  simp only [hb]

/-- Closed form of `get_or_create` on a miss: the new entry lands at the
pre-increment cursor modulo capacity, the miss counter and cursor
advance. -/
theorem get_or_create_miss_eq {β : Type} (shaper : List Char → β)
    (t : List Char) (f : Nat) (c : LockFreeShapeCache β)
    (hfind : c.find_cached_entry (hashText t) = none)
    (hne : c.entries ≠ []) :
    LockFreeShapeCache.get_or_create shaper t f c =
      (.ok (c.next_index % c.entries.length, shaper t),
       { c with
         entries := c.entries.set (c.next_index % c.entries.length)
           ⟨hashText t, some (shaper t), f, 1⟩,
         next_index := c.next_index + 1,
         miss_count := c.miss_count + 1 }) := by
  have hpos : 0 < c.entries.length := List.length_pos.2 hne
  have hlt : c.next_index % c.entries.length < c.entries.length :=
    Nat.mod_lt _ hpos
  unfold LockFreeShapeCache.get_or_create
  simp only [hfind, find_replacement_slot_eq]
  rw [getD_set_self _ _ hlt]

/-! ## Claim theorems -/

/-- **C8**: `hash_text_fnv1a_optimized` (the 4-byte-unrolled loop) agrees
with the straightforward byte-at-a-time FNV-1a fold over the text's UTF-8
bytes (`hash := 0xcbf29ce484222325`, then for each byte `b`
`hash := (hash XOR b) * 0x100000001b3 mod 2^64`); being a pure function
of the text, it therefore gives equal outputs for equal inputs across
repeated calls. -/
theorem C8_hash_unrolled_eq_bytewise_fnv1a (t : List Char) :
    hashText t = fnv1aReference (utf8Bytes t) := by
  unfold hashText hash_text_fnv1a_optimized fnv1aReference
  exact fnv1aUnrolledLoop_eq_foldl _ _

/-- **C6**: `get_buffer` is total (never panics): for every index and
cache state it returns the slot's optional payload when the index is in
range — hence `none` exactly when the slot holds no payload — and `none`
when the index is out of range. -/
theorem C6_get_buffer_total {β : Type} (c : LockFreeShapeCache β) (i : Nat) :
    c.get_buffer i =
      if h : i < c.entries.length then (c.entries.get ⟨i, h⟩).buffer
      else none := by
  unfold LockFreeShapeCache.get_buffer
  split
  · next h => simp [List.getElem?_eq_getElem h]
  · next h => simp [List.getElem?_eq_none (Nat.le_of_not_lt h)]

/-- **C7**: the lookup used by `get_or_create` (`find_cached_entry`)
only ever returns a slot whose payload is present and whose stored
fingerprint matches the probed hash; a slot with `payload = none` is
never returned regardless of its fingerprint value, so in particular a
text hashing to 0 (the default fingerprint of empty slots) never matches
an empty slot. -/
theorem C7_lookup_never_returns_empty_slot {β : Type}
    (c : LockFreeShapeCache β) (text_hash i : Nat)
    (hfind : c.find_cached_entry text_hash = some i) :
    (c.entries.getD i default).buffer.isSome = true ∧
    (c.entries.getD i default).text_hash = text_hash :=
  ⟨(find_cached_entry_spec c text_hash i hfind).2.1,
   (find_cached_entry_spec c text_hash i hfind).2.2⟩

/-- Witness for C6: an out-of-range probe of a concrete cache resolves
to `none` through the range test. -/
theorem C6_witness :
    c1Cache.get_buffer 9 =
      (if h : 9 < c1Cache.entries.length
       then (c1Cache.entries.get ⟨9, h⟩).buffer else none) :=
  C6_get_buffer_total c1Cache 9

/-- Witness for C7: probing `c7Cache` with hash 0 skips the empty slot 0
(despite its matching default fingerprint 0) and returns the occupied
slot 1. -/
theorem C7_witness :
    (c7Cache.entries.getD 1 default).buffer.isSome = true ∧
    (c7Cache.entries.getD 1 default).text_hash = 0 :=
  C7_lookup_never_returns_empty_slot c7Cache 0 1 (by decide)

/-- **C1** (code bug): on `c1Cache` at frame 100 with threshold 1/2 the
utilization (1) exceeds the threshold and `SIZE/4 = 1` eviction is
requested, and all occupied slots have pairwise-distinct
`last_used_frame`; yet `evict_lru_if_needed` clears slot 3 — the **most**
recently used slot (`last_used = 40`, smallest age 60) — while slot 0,
the oldest (`last_used = 10`, largest age 90), survives.  The cause: the
source sorts `(index, age)` pairs ascending by age and evicts the first
`evict_count` of them, so its own comments "Sort by age (oldest first)"
and "Evict oldest entries" are contradicted by the sort direction. -/
theorem C1_evicts_newest_not_oldest :
    c1Cache.utilization > (1 / 2 : ℚ) ∧
    ((c1Cache.evict_lru_if_needed (1 / 2 : ℚ) 100).entries.getD 3
      default).buffer = none ∧
    ((c1Cache.evict_lru_if_needed (1 / 2 : ℚ) 100).entries.getD 0
      default).buffer.isSome = true := by
  have hcond : c1Cache.utilization > (1 / 2 : ℚ) := by
    norm_num [LockFreeShapeCache.utilization, LockFreeShapeCache.entriesUsed,
      c1Cache]
  have heq : c1Cache.evict_lru_if_needed (1 / 2 : ℚ) 100 =
      c1Cache.evict_lru_entries 100 (c1Cache.entries.length / 4) := by
    unfold LockFreeShapeCache.evict_lru_if_needed
    rw [if_pos hcond]
  refine ⟨hcond, ?_, ?_⟩ <;> rw [heq] <;> decide

/-- **C3**: in a capacity-4 cache starting empty with cursor 0, the texts
"a","b","c","d" (pairwise-distinct hashes) are 4 misses placed at slots
0,1,2,3 in order; `get_or_create("a")` is then a hit at slot 0 leaving
hit-count 1 and miss-count 4; `get_or_create("e")` is a miss that
replaces slot 0, evicting "a" (slot 0 then carries "e"'s fingerprint);
and a final `get_or_create("a")` is a miss again. -/
theorem C3_round_robin_scenario :
    ([hashText ['a'], hashText ['b'], hashText ['c'], hashText ['d'],
      hashText ['e']].Pairwise (· ≠ ·)) ∧
    c3S1.1 = .ok (0, ['a']) ∧ c3S2.1 = .ok (1, ['b']) ∧
    c3S3.1 = .ok (2, ['c']) ∧ c3S4.1 = .ok (3, ['d']) ∧
    c3S4.2.miss_count = 4 ∧ c3S4.2.hit_count = 0 ∧
    c3S5.1 = .ok (0, ['a']) ∧ c3S5.2.hit_count = 1 ∧
    c3S5.2.miss_count = 4 ∧
    c3S6.1 = .ok (0, ['e']) ∧
    (c3S6.2.entries.getD 0 default).text_hash = hashText ['e'] ∧
    c3S7.2.miss_count = c3S6.2.miss_count + 1 ∧
    c3S7.2.hit_count = c3S6.2.hit_count := by
  decide

/-- Counterexample for **C5**: take a shaper that reports no usable
output for any text (payload flag `false`) and the non-empty,
non-whitespace text "x".  The claim demands a `ShapingFailed` error
propagated to the caller with no slot filled; instead `get_or_create`
returns `Ok` with slot 0 and stores the unusable payload in that slot —
the source has no shaping-failure path at all. -/
theorem C5_counterexample :
    (LockFreeShapeCache.get_or_create (fun _ => false) ['x'] 0 c5Cache).1 =
      .ok (0, false) ∧
    ((LockFreeShapeCache.get_or_create (fun _ => false) ['x'] 0
      c5Cache).2.entries.getD 0 default).buffer = some false := by
  decide

/-- **C5** (amended): `get_or_create` never returns an error, for any
shaper, text, frame and cache with at least one slot: shaping is
infallible in the source (`Buffer::new` + `set_text` +
`shape_until_scroll` cannot fail), so a miss always fills a slot and
returns `Ok`, and no `ShapingFailed` error exists or is propagated. -/
theorem C5_get_or_create_never_fails {β : Type} (shaper : List Char → β)
    (t : List Char) (f : Nat) (c : LockFreeShapeCache β)
    (hne : c.entries ≠ []) :
    (LockFreeShapeCache.get_or_create shaper t f c).1.isOk = true := by
  cases hfind : c.find_cached_entry (hashText t) with
  | some index =>
      obtain ⟨b, hb⟩ := Option.isSome_iff_exists.1
        (find_cached_entry_spec c _ index hfind).2.1
      rw [get_or_create_hit_eq shaper t f c index b hfind hb]
      rfl
  | none =>
      rw [get_or_create_miss_eq shaper t f c hfind hne]
      rfl

/-- Witness for C5 (amended): a concrete call on the empty two-slot
cache succeeds. -/
theorem C5_witness :
    (LockFreeShapeCache.get_or_create shaperId ['x'] 0
      (LockFreeShapeCache.new (List Char) 2)).1.isOk = true :=
  C5_get_or_create_never_fails shaperId ['x'] 0
    (LockFreeShapeCache.new (List Char) 2) (by decide)

/-- `find_cached_entry` only looks at each slot's fingerprint and
payload-presence, so it is unchanged by state updates that preserve
those. -/
theorem find_cached_entry_congr {β : Type} (c c' : LockFreeShapeCache β)
    (text_hash : Nat) (hlen : c'.entries.length = c.entries.length)
    (hsame : ∀ j, j < c.entries.length →
      (c'.entries.getD j default).text_hash =
        (c.entries.getD j default).text_hash ∧
      (c'.entries.getD j default).buffer.isSome =
        (c.entries.getD j default).buffer.isSome) :
    c'.find_cached_entry text_hash = c.find_cached_entry text_hash := by
  unfold LockFreeShapeCache.find_cached_entry
  rw [hlen]
  apply find?_congr
  intro x hx
  have hs := hsame x (List.mem_range.1 hx)
  rw [hs.1, hs.2]

/-- **C2**: for a text whose hash matches at most one cached entry,
calling `get_or_create` twice in succession (no intervening eviction)
returns the same slot index both times; the second call increments the
cache's global hit counter by exactly 1 and leaves the global miss
counter unchanged. -/
theorem C2_second_call_hits_same_slot {β : Type} (shaper : List Char → β)
    (t : List Char) (f1 f2 : Nat) (c : LockFreeShapeCache β)
    (hne : c.entries ≠ [])
    (_hcol : ∀ i ∈ List.range c.entries.length,
      ∀ j ∈ List.range c.entries.length,
      ((c.entries.getD i default).text_hash = hashText t ∧
        (c.entries.getD i default).buffer.isSome = true) →
      ((c.entries.getD j default).text_hash = hashText t ∧
        (c.entries.getD j default).buffer.isSome = true) → i = j) :
    ∃ i b1 b2,
      (LockFreeShapeCache.get_or_create shaper t f1 c).1 = .ok (i, b1) ∧
      (LockFreeShapeCache.get_or_create shaper t f2
        (LockFreeShapeCache.get_or_create shaper t f1 c).2).1 = .ok (i, b2) ∧
      (LockFreeShapeCache.get_or_create shaper t f2
        (LockFreeShapeCache.get_or_create shaper t f1 c).2).2.hit_count =
        (LockFreeShapeCache.get_or_create shaper t f1 c).2.hit_count + 1 ∧
      (LockFreeShapeCache.get_or_create shaper t f2
        (LockFreeShapeCache.get_or_create shaper t f1 c).2).2.miss_count =
        (LockFreeShapeCache.get_or_create shaper t f1 c).2.miss_count := by
  cases hfind : c.find_cached_entry (hashText t) with
  | some i =>
      have hspec := find_cached_entry_spec c _ i hfind
      obtain ⟨b, hb⟩ := Option.isSome_iff_exists.1 hspec.2.1
      have hlt : i < c.entries.length := hspec.1
      have h1 := get_or_create_hit_eq shaper t f1 c i b hfind hb
      rw [h1]
      have hfindA :
          LockFreeShapeCache.find_cached_entry
            { c with
              entries := c.entries.set i
                (let e := c.entries.getD i default;
                 { e with last_used := f1, hit_count := e.hit_count + 1 }),
              hit_count := c.hit_count + 1 } (hashText t) =
            some i := by
        refine (find_cached_entry_congr c _ (hashText t) (by simp) ?_).trans
          hfind
        intro j hj
        by_cases hij : i = j
        · subst hij
          show (((c.entries.set i _).getD i default).text_hash = _ ∧ _)
          rw [getD_set_self _ _ hlt]
          exact ⟨rfl, rfl⟩
        · show (((c.entries.set i _).getD j default).text_hash = _ ∧ _)
          rw [getD_set_ne hij]
          exact ⟨rfl, rfl⟩
      have hb2 :
          (({ c with
              entries := c.entries.set i
                (let e := c.entries.getD i default;
                 { e with last_used := f1, hit_count := e.hit_count + 1 }),
              hit_count := c.hit_count + 1 } :
            LockFreeShapeCache β).entries.getD i default).buffer = some b := by
        show ((c.entries.set i _).getD i default).buffer = some b
        rw [getD_set_self _ _ hlt]
        exact hb
      have h2 := get_or_create_hit_eq shaper t f2 _ i b hfindA hb2
      exact ⟨i, b, b, rfl, by rw [h2], by rw [h2], by rw [h2]⟩
  | none =>
      have h1 := get_or_create_miss_eq shaper t f1 c hfind hne
      have hpos : 0 < c.entries.length := List.length_pos.2 hne
      have hlt : c.next_index % c.entries.length < c.entries.length :=
        Nat.mod_lt _ hpos
      have hnone : ∀ x ∈ List.range c.entries.length,
          ¬ (((c.entries.getD x default).text_hash == hashText t
            && (c.entries.getD x default).buffer.isSome) = true) := by
        unfold LockFreeShapeCache.find_cached_entry at hfind
        exact List.find?_eq_none.1 hfind
      rw [h1]
      have hfindB :
          LockFreeShapeCache.find_cached_entry
            { c with
              entries := c.entries.set (c.next_index % c.entries.length)
                ⟨hashText t, some (shaper t), f1, 1⟩,
              next_index := c.next_index + 1,
              miss_count := c.miss_count + 1 } (hashText t) =
            some (c.next_index % c.entries.length) := by
        unfold LockFreeShapeCache.find_cached_entry
        apply find?_eq_some_unique
        · simpa [List.mem_range] using hlt
        · show (((c.entries.set _ _).getD _ default).text_hash == hashText t
            && ((c.entries.set _ _).getD _ default).buffer.isSome) = true
          rw [getD_set_self _ _ hlt]
          simp
        · intro j hj hpj
          by_contra hne'
          have hj' : j < c.entries.length := by
            simpa [List.mem_range] using hj
          rw [show (({ c with
                entries := c.entries.set (c.next_index % c.entries.length)
                  ⟨hashText t, some (shaper t), f1, 1⟩,
                next_index := c.next_index + 1,
                miss_count := c.miss_count + 1 } :
              LockFreeShapeCache β).entries.getD j default) =
              c.entries.getD j default from
            getD_set_ne (fun h => hne' h.symm) _ _] at hpj
          exact hnone j (List.mem_range.2 hj') hpj
      have hb2 :
          (({ c with
              entries := c.entries.set (c.next_index % c.entries.length)
                ⟨hashText t, some (shaper t), f1, 1⟩,
              next_index := c.next_index + 1,
              miss_count := c.miss_count + 1 } :
            LockFreeShapeCache β).entries.getD
              (c.next_index % c.entries.length) default).buffer =
            some (shaper t) := by
        show ((c.entries.set _ _).getD _ default).buffer = some (shaper t)
        rw [getD_set_self _ _ hlt]
      have h2 := get_or_create_hit_eq shaper t f2 _
        (c.next_index % c.entries.length) (shaper t) hfindB hb2
      exact ⟨c.next_index % c.entries.length, shaper t, shaper t, rfl,
        by rw [h2], by rw [h2], by rw [h2]⟩

/-- Witness for C2: the empty two-slot cache and the text "a". -/
theorem C2_witness :
    ∃ i b1 b2,
      (LockFreeShapeCache.get_or_create shaperId ['a'] 0 c2Cache).1 =
        .ok (i, b1) ∧
      (LockFreeShapeCache.get_or_create shaperId ['a'] 1
        (LockFreeShapeCache.get_or_create shaperId ['a'] 0 c2Cache).2).1 =
        .ok (i, b2) ∧
      (LockFreeShapeCache.get_or_create shaperId ['a'] 1
        (LockFreeShapeCache.get_or_create shaperId ['a'] 0
          c2Cache).2).2.hit_count =
        (LockFreeShapeCache.get_or_create shaperId ['a'] 0
          c2Cache).2.hit_count + 1 ∧
      (LockFreeShapeCache.get_or_create shaperId ['a'] 1
        (LockFreeShapeCache.get_or_create shaperId ['a'] 0
          c2Cache).2).2.miss_count =
        (LockFreeShapeCache.get_or_create shaperId ['a'] 0
          c2Cache).2.miss_count :=
  C2_second_call_hits_same_slot shaperId ['a'] 0 1 c2Cache (by decide)
    (by decide)

/-- Successive `add_area` calls on a pool whose occupied prefix is
`done`: every call succeeds while capacity remains, each descriptor is
appended after `done` in call order, and the frame counter never
changes. -/
theorem addAll_spec {F B C : Type} :
    ∀ (args : List (AddArgs F B C)) (done : List (SafeTextArea F B C))
      (rest : List (Option (SafeTextArea F B C)))
      (p : ZeroAllocTextAreaPool F B C),
      p.areas = done.map some ++ rest → p.active_count = done.length →
      args.length ≤ rest.length →
      addAll p args =
        (List.replicate args.length (.ok ()),
         { areas := (done ++ args.map (mkArea p.frame_counter)).map some ++
             rest.drop args.length,
           active_count := done.length + args.length,
           frame_counter := p.frame_counter }) := by
  intro args
  induction args with
  | nil =>
      intro done rest p hareas hactive _hle
      obtain ⟨areas, ac, fc⟩ := p
      simp only at hareas hactive
      subst hareas hactive
      simp [addAll]
  | cons a args' ih =>
      intro done rest p hareas hactive hle
      cases rest with
      | nil => exact absurd hle (by simp)
      | cons r rest' =>
          have hle' : args'.length ≤ rest'.length := by
            simpa using hle
          have hlt : p.active_count < p.areas.length := by
            rw [hareas, hactive]
            simp only [List.length_append, List.length_map, List.length_cons]
            omega
          have hstep : addArea1 p a =
              (.ok (),
               { p with
                 areas := p.areas.set p.active_count
                   (some (mkArea p.frame_counter a)),
                 active_count := p.active_count + 1 }) := by
            unfold addArea1 ZeroAllocTextAreaPool.add_area
            rw [if_neg (Nat.not_le.2 hlt)]
            rfl
          have hset : p.areas.set p.active_count
              (some (mkArea p.frame_counter a)) =
              (done ++ [mkArea p.frame_counter a]).map some ++ rest' := by
            rw [hareas, hactive]
            rw [List.set_append_right _ _ (by simp)]
            simp
          have ih' := ih (done ++ [mkArea p.frame_counter a]) rest'
            { p with
              areas := p.areas.set p.active_count
                (some (mkArea p.frame_counter a)),
              active_count := p.active_count + 1 }
            hset (by simp [hactive]) hle'
          simp only [addAll]
          rw [hstep]
          simp only []
          rw [ih']
          simp only [List.replicate_succ, List.map_append, List.map_cons,
            List.map_nil, List.append_assoc, List.singleton_append,
            List.length_append, List.length_cons, List.length_map,
            List.length_nil, List.drop_succ_cons,
            ZeroAllocTextAreaPool.mk.injEq, Prod.mk.injEq]
          exact ⟨trivial, trivial, by omega, trivial⟩

/-- **C4**: starting from a freshly reset pool of capacity M, M
successive `add_area` calls all return `Ok`; the (M+1)th call returns
`CapacityExceeded` and leaves the pool state unchanged; and
`iter_active` then yields exactly the M added descriptors, in insertion
order. -/
theorem C4_pool_capacity_exact {F B C : Type}
    (p : ZeroAllocTextAreaPool F B C) (args : List (AddArgs F B C))
    (extra : AddArgs F B C)
    (hlen : args.length = p.reset.areas.length) :
    (addAll p.reset args).1 = List.replicate args.length (.ok ()) ∧
    addArea1 (addAll p.reset args).2 extra =
      (.error .CapacityExceeded, (addAll p.reset args).2) ∧
    (addAll p.reset args).2.iter_active =
      args.map (mkArea p.reset.frame_counter) := by
  have hspec := addAll_spec args [] p.reset.areas p.reset (by simp) rfl
    (le_of_eq hlen)
  rw [hspec]
  dsimp only
  rw [hlen, List.drop_length]
  refine ⟨rfl, ?_, ?_⟩
  · unfold addArea1 ZeroAllocTextAreaPool.add_area
    rw [if_pos (by simp [hlen])]
  · unfold ZeroAllocTextAreaPool.iter_active
    rw [List.take_of_length_le (by simp [hlen])]
    simp [List.filterMap_map]

/-- Witness for C4: the freshly reset two-slot pool, two adds, and an
overflowing third add. -/
theorem C4_witness :
    (addAll c4Pool.reset c4Args).1 =
      List.replicate c4Args.length (.ok ()) ∧
    addArea1 (addAll c4Pool.reset c4Args).2 c4Extra =
      (.error .CapacityExceeded, (addAll c4Pool.reset c4Args).2) ∧
    (addAll c4Pool.reset c4Args).2.iter_active =
      c4Args.map (mkArea c4Pool.reset.frame_counter) :=
  C4_pool_capacity_exact c4Pool c4Args c4Extra (by decide)

/-- In an all-space row, every (defaulted) cell read is a space. -/
theorem getD_char_space (cells : List Cell) (i : Nat)
    (hsp : ∀ cell ∈ cells, cell.character = ' ') :
    (cells.getD i Cell.default).character = ' ' := by
  rcases Nat.lt_or_ge i cells.length with h | h
  · rw [List.getD_eq_getElem?_getD, List.getElem?_eq_getElem h]
    exact hsp _ (List.get_mem cells i h)
  · rw [List.getD_eq_getElem?_getD, List.getElem?_eq_none h]
    rfl

/-- The reverse chunk scan finds nothing in an all-space row. -/
theorem scanRevNonSpace_all_space (cells : List Cell) (lo : Nat)
    (hsp : ∀ cell ∈ cells, cell.character = ' ') :
    ∀ len, ZeroAllocTextRenderer.scanRevNonSpace cells lo len = none := by
  intro len
  induction len with
  | zero => rfl
  | succ n ih =>
      unfold ZeroAllocTextRenderer.scanRevNonSpace
      have hc := getD_char_space cells (lo + n) hsp
      rw [if_neg (by simp only [ne_eq, not_not]; simpa using hc)]
      exact ih

/-- The reverse full-chunk loop finds nothing in an all-space row. -/
theorem chunkScanRev_all_space (cells : List Cell)
    (hsp : ∀ cell ∈ cells, cell.character = ' ') :
    ∀ chunks, ZeroAllocTextRenderer.chunkScanRev cells chunks = none := by
  intro chunks
  induction chunks with
  | zero => rfl
  | succ c ih =>
      unfold ZeroAllocTextRenderer.chunkScanRev
      rw [scanRevNonSpace_all_space cells _ hsp]
      exact ih

/-- `find_last_non_space_simd_friendly` returns 0 on an all-space row. -/
theorem find_last_non_space_all_space (cells : List Cell)
    (hsp : ∀ cell ∈ cells, cell.character = ' ') :
    ZeroAllocTextRenderer.find_last_non_space_simd_friendly cells = 0 := by
  unfold ZeroAllocTextRenderer.find_last_non_space_simd_friendly
  simp only [scanRevNonSpace_all_space cells _ hsp,
    chunkScanRev_all_space cells hsp, ite_self]

/-- **C9**: for a dirty row whose cells are all spaces, the derived row
text is empty and the per-frame driver adds no descriptor: the cache and
the pool (in particular its active count) are unchanged by processing
that row. -/
theorem C9_all_space_row_adds_nothing {β F B C : Type}
    (shaper : List Char → β) (palette : Nat → C) (rowY : Nat → F)
    (rowBounds : Nat → B) (scale_factor zeroF : F)
    (frame_count row_idx : Nat) (cells : List Cell)
    (shape_cache : LockFreeShapeCache β)
    (text_area_pool : ZeroAllocTextAreaPool F B C)
    (hsp : ∀ cell ∈ cells, cell.character = ' ') :
    (ZeroAllocTextRenderer.build_row_text_with_color cells palette).1 =
      [] ∧
    processDirtyRow shaper palette rowY rowBounds scale_factor zeroF
      frame_count row_idx cells shape_cache text_area_pool =
      (shape_cache, text_area_pool) := by
  have h0 := find_last_non_space_all_space cells hsp
  have htext : ZeroAllocTextRenderer.build_row_text_with_color cells
      palette = ([], palette 7) := by
    unfold ZeroAllocTextRenderer.build_row_text_with_color
    rw [h0]
    rfl
  refine ⟨by rw [htext], ?_⟩
  unfold processDirtyRow RowData.from_cells
  rw [htext]
  rfl

/-- Witness for C9: a concrete three-space row leaves a concrete cache
and pool untouched. -/
theorem C9_witness :
    (ZeroAllocTextRenderer.build_row_text_with_color c9Cells
      (fun _ => ())).1 = [] ∧
    processDirtyRow shaperId (fun _ => ()) (fun _ => ()) (fun _ => ())
      () () 0 0 c9Cells c9Cache c9Pool = (c9Cache, c9Pool) :=
  C9_all_space_row_adds_nothing shaperId (fun _ => ()) (fun _ => ())
    (fun _ => ()) () () 0 0 c9Cells c9Cache c9Pool (by decide)

theorem liveAreas_length_le {F B C : Type} (cf : Nat)
    (l : List (Option (SafeTextArea F B C))) :
    (liveAreas cf l).length ≤ l.length :=
  le_trans (List.length_filter_le _ _) (List.length_filterMap_le _ _)

theorem liveAreas_append {F B C : Type} (cf : Nat)
    (l l' : List (Option (SafeTextArea F B C))) :
    liveAreas cf (l ++ l') = liveAreas cf l ++ liveAreas cf l' := by
  simp [liveAreas]

theorem liveAreas_singleton_none {F B C : Type} (cf : Nat) :
    liveAreas cf ([none] : List (Option (SafeTextArea F B C))) = [] := by
  simp [liveAreas]

theorem liveAreas_singleton_some {F B C : Type} (cf : Nat)
    (a : SafeTextArea F B C) :
    liveAreas cf [some a] =
      if a.is_stale cf MAX_AGE_FRAMES then [] else [a] := by
  cases hst : a.is_stale cf MAX_AGE_FRAMES <;>
    simp [liveAreas, List.filter, hst]

theorem append_replicate_cons {α : Type} (X : List α) (n : Nat) (a : α)
    (t : List α) :
    X ++ List.replicate n a ++ a :: t = X ++ List.replicate (n + 1) a ++ t := by
  rw [List.replicate_succ']
  simp [List.append_assoc]

/-- Invariant of the compaction loop in `cleanup_stale_areas`: after
processing the first `k` read indices, the array holds the live
descriptors of the first `k` slots compacted at the front, a block of
cleared slots after them, and the untouched tail; the write index equals
the number of live descriptors seen. -/
theorem cleanupLoop_spec {F B C : Type} (cf : Nat)
    (A : List (Option (SafeTextArea F B C))) :
    ∀ k, k ≤ A.length →
      (List.range k).foldl (ZeroAllocTextAreaPool.cleanupStep cf) (A, 0) =
        ((liveAreas cf (A.take k)).map some ++
           List.replicate (k - (liveAreas cf (A.take k)).length) none ++
           A.drop k,
         (liveAreas cf (A.take k)).length) := by
  intro k
  induction k with
  | zero => intro _; simp [liveAreas]
  | succ k ih =>
      intro hk1
      have hk : k < A.length := hk1
      have hIH := ih (Nat.le_of_lt hk)
      rw [List.range_succ, List.foldl_append, hIH]
      simp only [List.foldl_cons, List.foldl_nil]
      have hw : (liveAreas cf (A.take k)).length ≤ k :=
        le_trans (liveAreas_length_le cf _) (List.length_take_le _ _)
      have hPlen : ((liveAreas cf (A.take k)).map some ++
          List.replicate (k - (liveAreas cf (A.take k)).length) none).length
          = k := by
        simp
        omega
      have hdropk : A.drop k = A[k] :: A.drop (k + 1) :=
        List.drop_eq_getElem_cons hk
      have htake : A.take (k + 1) = A.take k ++ [A[k]] := by
        rw [List.take_succ, List.getElem?_eq_getElem hk]
        rfl
      have hget : (((liveAreas cf (A.take k)).map some ++
          List.replicate (k - (liveAreas cf (A.take k)).length) none) ++
          A.drop k).getD k none = A[k] := by
        rw [List.getD_eq_getElem?_getD,
          List.getElem?_append_right (le_of_eq hPlen), hPlen,
          Nat.sub_self, List.getElem?_drop, Nat.add_zero,
          List.getElem?_eq_getElem hk]
        rfl
      unfold ZeroAllocTextAreaPool.cleanupStep
      rw [htake, liveAreas_append]
      cases hup : A[k] with
      | none =>
          rw [hup] at hget hdropk
          simp only [hget, liveAreas_singleton_none, List.append_nil]
          rw [hdropk, append_replicate_cons]
          have : k + 1 - (liveAreas cf (A.take k)).length =
              (k - (liveAreas cf (A.take k)).length) + 1 := by omega
          rw [this]
      | some a =>
          rw [hup] at hget hdropk
          simp only [hget, liveAreas_singleton_some]
          cases hst : a.is_stale cf MAX_AGE_FRAMES with
          | true =>
              simp only [hst, Bool.not_true, Bool.false_eq_true, if_false,
                if_true, List.append_nil]
              have hsetk : (((liveAreas cf (A.take k)).map some ++
                  List.replicate (k - (liveAreas cf (A.take k)).length)
                    none) ++ A.drop k).set k none =
                  ((liveAreas cf (A.take k)).map some ++
                    List.replicate (k - (liveAreas cf (A.take k)).length)
                      none) ++ (none : Option (SafeTextArea F B C)) ::
                    A.drop (k + 1) := by
                rw [List.set_append_right _ _ (le_of_eq hPlen), hPlen,
                  Nat.sub_self, hdropk, List.set_cons_zero]
              rw [hsetk, append_replicate_cons]
              have : k + 1 - (liveAreas cf (A.take k)).length =
                  (k - (liveAreas cf (A.take k)).length) + 1 := by omega
              rw [this]
          | false =>
              simp only [hst, Bool.not_false, if_true, Bool.false_eq_true,
                if_false]
              by_cases hwk : (liveAreas cf (A.take k)).length = k
              · rw [if_neg (by simp [hwk])]
                have hrepl : k - (liveAreas cf (A.take k)).length = 0 := by
                  omega
                simp only [hwk, hrepl, List.replicate_zero, List.append_nil,
                  Nat.sub_self, List.replicate, List.map_append]
                rw [hdropk]
                simp [List.append_assoc, Nat.add_sub_cancel_left]
                exact ⟨hrepl, hwk.symm⟩
              · rw [if_pos (by omega)]
                have hlt' : (liveAreas cf (A.take k)).length < k := by
                  omega
                have hr1 : k - (liveAreas cf (A.take k)).length =
                    (k - (liveAreas cf (A.take k)).length - 1) + 1 := by
                  omega
                have hsetw : (((liveAreas cf (A.take k)).map some ++
                    List.replicate (k - (liveAreas cf (A.take k)).length)
                      none) ++ A.drop k).set
                      (liveAreas cf (A.take k)).length (some a) =
                    ((liveAreas cf (A.take k)).map some ++
                      some a ::
                        List.replicate
                          (k - (liveAreas cf (A.take k)).length - 1) none)
                      ++ A.drop k := by
                  rw [List.append_assoc,
                    List.set_append_right _ _ (by simp), hr1]
                  simp [List.replicate_succ]
                rw [hsetw]
                have hplen2 : ((liveAreas cf (A.take k)).map some ++
                    some a :: List.replicate
                      (k - (liveAreas cf (A.take k)).length - 1)
                      none).length = k := by
                  simp
                  omega
                have hsetk2 : ((((liveAreas cf (A.take k)).map some ++
                    some a :: List.replicate
                      (k - (liveAreas cf (A.take k)).length - 1) none))
                    ++ A.drop k).set k none =
                    (((liveAreas cf (A.take k)).map some ++
                      some a :: List.replicate
                        (k - (liveAreas cf (A.take k)).length - 1) none))
                      ++ (none : Option (SafeTextArea F B C)) ::
                      A.drop (k + 1) := by
                  rw [List.set_append_right _ _ (le_of_eq hplen2), hplen2,
                    Nat.sub_self, hdropk, List.set_cons_zero]
                rw [hsetk2]
                have hlen3 : (liveAreas cf (A.take k) ++ [a]).length =
                    (liveAreas cf (A.take k)).length + 1 := by simp
                have harith : k + 1 - ((liveAreas cf (A.take k)).length + 1)
                    = (k - (liveAreas cf (A.take k)).length - 1) + 1 := by
                  omega
                rw [hlen3, harith, ← append_replicate_cons]
                simp [List.append_assoc, Prod.mk.injEq]

/-- **C10**: the compaction run inside `reset` exactly when the
(pre-increment) frame counter is a multiple of 60 removes precisely the
descriptors whose age `current_frame - last_access_frame` (saturating
subtraction, so a future-stamped descriptor has age 0 and is never
removed) strictly exceeds 180 frames, and shifts the survivors to the
front preserving their relative order, clearing the slots after them. -/
theorem C10_cleanup_compaction {F B C : Type}
    (p : ZeroAllocTextAreaPool F B C) (cf : Nat) :
    (p.cleanup_stale_areas cf).areas =
      (liveAreas cf p.areas).map some ++
        List.replicate (p.areas.length - (liveAreas cf p.areas).length)
          none ∧
    (p.reset).areas =
      (if p.frame_counter % CLEANUP_INTERVAL_FRAMES = 0
       then p.cleanup_stale_areas p.frame_counter else p).areas ∧
    ∀ a : SafeTextArea F B C, cf ≤ a.last_access_frame →
      a.is_stale cf MAX_AGE_FRAMES = false := by
  refine ⟨?_, ?_, ?_⟩
  · show ((List.range p.areas.length).foldl
      (ZeroAllocTextAreaPool.cleanupStep cf) (p.areas, 0)).1 = _
    rw [cleanupLoop_spec cf p.areas p.areas.length (Nat.le_refl _)]
    simp
  · unfold ZeroAllocTextAreaPool.reset
    dsimp only
    by_cases h : p.frame_counter % CLEANUP_INTERVAL_FRAMES = 0
    · rw [if_pos h, if_pos h]
      exact rfl
    · rw [if_neg h, if_neg h]
  · intro a h
    unfold SafeTextArea.is_stale
    simp [Nat.sub_eq_zero_of_le h]

/-- Witness for C10: a pool with one stale, one missing and one live
descriptor at a cleanup frame, and a future-stamped descriptor that is
not considered stale. -/
theorem C10_witness :
    (c10Pool.cleanup_stale_areas 200).areas =
      (liveAreas 200 c10Pool.areas).map some ++
        List.replicate
          (c10Pool.areas.length - (liveAreas 200 c10Pool.areas).length)
          none ∧
    (c10Pool.reset).areas =
      (if c10Pool.frame_counter % CLEANUP_INTERVAL_FRAMES = 0
       then c10Pool.cleanup_stale_areas c10Pool.frame_counter
       else c10Pool).areas ∧
    c10A3.is_stale 200 MAX_AGE_FRAMES = false :=
  ⟨(C10_cleanup_compaction c10Pool 200).1,
   (C10_cleanup_compaction c10Pool 200).2.1,
   (C10_cleanup_compaction c10Pool 200).2.2 c10A3 (by decide)⟩

end VelloCache
